import Mathlib

/-!
Verification of the placeholder rewriter of rakibtg/PreparedSQL (src/index.js).

The single source function is

  function SqlPilot(sql, params) ...

It rewrites every regex match of `:([a-zA-Z0-9_]+)` in `sql`:
if `params.hasOwnProperty(key)` holds, an array value of length n becomes
a parenthesized group of n question marks joined by a comma and a space and
its elements are pushed to the parameter list; any other value becomes a
single question mark and is pushed; otherwise the matched text is kept.

The embedding below works on `List Char`.  Bound values are a tagged union
`BVal` (array or scalar, matching the `Array.isArray` test); the bindings
object is a `JsObj`, a list of own properties plus a list of inherited
(prototype) data properties, since the source decides presence with
`hasOwnProperty`, an own-property check.  The left-to-right global regex
replace is embedded as `scanF`, a fuel-indexed scanner (fuel at least the
length of the input makes it total and structurally recursive, so every
concrete instance evaluates by `decide`).  `scanE` additionally models the
JavaScript method dispatch of the call `params.hasOwnProperty(key)`: when
the bindings object itself binds the name `hasOwnProperty` to a data value,
that value shadows the built-in function and the call raises a TypeError.
-/

/-- Character class of the regex `[a-zA-Z0-9_]` in src/index.js line 12. -/
def isWordChar (c : Char) : Bool :=
  (decide ('a' ≤ c) && decide (c ≤ 'z')) ||
  (decide ('A' ≤ c) && decide (c ≤ 'Z')) ||
  (decide ('0' ≤ c) && decide (c ≤ '9')) ||
  (c == '_')

/-- Greedy run of word characters: the `+` of `:([a-zA-Z0-9_]+)`.
Returns the maximal word-character prefix and the remaining suffix. -/
def spanWord : List Char → List Char × List Char
  | [] => ([], [])
  | c :: cs =>
    if isWordChar c then
      ((c :: (spanWord cs).1), (spanWord cs).2)
    else
      ([], c :: cs)

/-- A bound value: the source distinguishes arrays (`Array.isArray(value)`,
line 15) from everything else, which is treated as an opaque scalar. -/
inductive BVal (α : Type) where
  | scalar (v : α)
  | arr (vs : List α)
deriving DecidableEq

/-- The shape of a bound value: `none` for a scalar, the length for an
array.  Only the shape of a binding can influence the rewritten SQL text. -/
def shape {α : Type} : BVal α → Option Nat
  | BVal.scalar _ => none
  | BVal.arr vs => some vs.length

/-- The bindings object.  `own` are its own properties (the ones
`params.hasOwnProperty(key)` reports, line 13); `proto` are inherited data
properties living on its prototype, visible to `params[key]` but not to
`hasOwnProperty`. -/
structure JsObj (α : Type) where
  own : List (String × BVal α)
  proto : List (String × BVal α)

/-- The comma-separated question marks built at lines 16-21 of the source:
`value.map(function () { return "?" }).join(", ")`. -/
def placeholders (n : Nat) : List Char :=
  List.intercalate [',', ' '] (List.replicate n ['?'])

/-- One pass of the global replace of src/index.js lines 12-32, with
explicit fuel.  At a character `c`: if `c` is a colon followed by at least
one word character, the regex matches `:run`; the key `run` is looked up
among the own properties (the `hasOwnProperty` guard plus the `params[key]`
read, which under a true guard yields the own value); an array value emits
`(` ++ placeholders ++ `)` and prepends its elements to the parameters
produced by the rest, a scalar emits `?` and prepends itself, an absent key
re-emits the matched text.  Otherwise `c` is copied verbatim.  Fuel at
least the length of the input is never exhausted. -/
def scanF {α : Type} (p : JsObj α) : Nat → List Char → List Char × List α
  | _, [] => ([], [])
  | 0, s => (s, [])
  | fuel + 1, c :: cs =>
    if c = ':' ∧ (spanWord cs).1 ≠ [] then
      match p.own.lookup (String.mk (spanWord cs).1) with
      | some (BVal.arr vs) =>
        ('(' :: (placeholders vs.length ++ ')' :: (scanF p fuel (spanWord cs).2).1),
         vs ++ (scanF p fuel (spanWord cs).2).2)
      | some (BVal.scalar v) =>
        ('?' :: (scanF p fuel (spanWord cs).2).1, v :: (scanF p fuel (spanWord cs).2).2)
      | none =>
        (':' :: ((spanWord cs).1 ++ (scanF p fuel (spanWord cs).2).1),
         (scanF p fuel (spanWord cs).2).2)
    else
      (c :: (scanF p fuel cs).1, (scanF p fuel cs).2)

/-- The scanner at adequate fuel. -/
def scan {α : Type} (p : JsObj α) (s : List Char) : List Char × List α :=
  scanF p s.length s

/-- The function `SqlPilot` of src/index.js: the rewritten SQL together
with the collected parameter list. -/
def SqlPilot {α : Type} (sql : String) (params : JsObj α) : String × List α :=
  (String.mk (scan params sql.data).1, (scan params sql.data).2)

/-- The one JavaScript runtime error the source can raise. -/
inductive JsError where
  | typeError
deriving DecidableEq

/-- Whether the member expression `params.hasOwnProperty` resolves to a
bound data value instead of the built-in function: an own or inherited data
property named `hasOwnProperty` shadows `Object.prototype.hasOwnProperty`,
and a data value (number, string, array, ...) is not callable. -/
def hopShadowed {α : Type} (p : JsObj α) : Bool :=
  (p.own.lookup "hasOwnProperty").isSome || (p.proto.lookup "hasOwnProperty").isSome

/-- The scanner under full JavaScript semantics of the call
`params.hasOwnProperty(key)` (line 13): the call is evaluated once per
regex match, and raises a TypeError when the name `hasOwnProperty` is
shadowed by a data property of the bindings object. -/
def scanE {α : Type} (p : JsObj α) : Nat → List Char → Except JsError (List Char × List α)
  | _, [] => Except.ok ([], [])
  | 0, s => Except.ok (s, [])
  | fuel + 1, c :: cs =>
    if c = ':' ∧ (spanWord cs).1 ≠ [] then
      if hopShadowed p then Except.error JsError.typeError
      else
        match scanE p fuel (spanWord cs).2 with
        | Except.error e => Except.error e
        | Except.ok r =>
          match p.own.lookup (String.mk (spanWord cs).1) with
          | some (BVal.arr vs) =>
            Except.ok ('(' :: (placeholders vs.length ++ ')' :: r.1), vs ++ r.2)
          | some (BVal.scalar v) => Except.ok ('?' :: r.1, v :: r.2)
          | none => Except.ok (':' :: ((spanWord cs).1 ++ r.1), r.2)
    else
      match scanE p fuel cs with
      | Except.error e => Except.error e
      | Except.ok r => Except.ok (c :: r.1, r.2)

/-- `SqlPilot` under full JavaScript semantics: either a TypeError or the
rewritten SQL with its parameter list. -/
def SqlPilotJS {α : Type} (sql : String) (params : JsObj α) :
    Except JsError (String × List α) :=
  match scanE params sql.data.length sql.data with
  | Except.error e => Except.error e
  | Except.ok r => Except.ok (String.mk r.1, r.2)

/-- The character `c` does not start a placeholder token in front of the
given text: `c` is not a colon, or the text does not start with a word
character. -/
def headNoTok (c : Char) : List Char → Bool
  | [] => true
  | d :: _ => !((c == ':') && isWordChar d)

/-- No substring of the text matches `:[A-Za-z0-9_]+`: no colon is
immediately followed by a word character. -/
def noToken : List Char → Bool
  | [] => true
  | c :: cs => headNoTok c cs && noToken cs

/-- The text may directly follow a placeholder token without extending it:
it is empty or starts with a non-word character. -/
def boundaryOk : List Char → Bool
  | [] => true
  | c :: _ => !(isWordChar c)

/-- `tokTail tok ss` glues `tok` in front of each segment of `ss`: the part
of a template after its first segment, with one token occurrence per
remaining segment. -/
def tokTail (tok : List Char) (ss : List (List Char)) : List Char :=
  (ss.map (fun s => tok ++ s)).flatten

/-! ## Basic facts about the word-run scanner -/

theorem spanWord_append_eq (s : List Char) : (spanWord s).1 ++ (spanWord s).2 = s := by
  induction s with
  | nil => rfl
  | cons c cs ih =>
    by_cases h : isWordChar c
    · simp [spanWord, h, ih]
    · simp [spanWord, h]

theorem spanWord_fst_word (s : List Char) : ∀ c ∈ (spanWord s).1, isWordChar c = true := by
  induction s with
  | nil => intro c hc; simp [spanWord] at hc
  | cons c cs ih =>
    by_cases h : isWordChar c
    · intro x hx
      simp [spanWord, h] at hx
      rcases hx with hx | hx
      · exact hx ▸ h
      · exact ih x hx
    · intro x hx; simp [spanWord, h] at hx

theorem spanWord_snd_length (s : List Char) : (spanWord s).2.length ≤ s.length := by
  induction s with
  | nil => simp [spanWord]
  | cons c cs ih =>
    by_cases h : isWordChar c
    · simp only [spanWord, h, if_true]
      exact Nat.le_trans ih (Nat.le_succ _)
    · simp [spanWord, h]

theorem spanWord_eq_of_word (key rest : List Char)
    (hw : ∀ c ∈ key, isWordChar c = true) (hb : boundaryOk rest = true) :
    spanWord (key ++ rest) = (key, rest) := by
  induction key with
  | nil =>
    cases rest with
    | nil => rfl
    | cons r rs =>
      have hr : isWordChar r = false := by
        simpa [boundaryOk] using hb
      simp [spanWord, hr]
  | cons k ks ih =>
    have hk : isWordChar k = true := hw k (by simp)
    have ih' := ih (fun c hc => hw c (by simp [hc]))
    simp [spanWord, hk, ih']

/-! ## The question-mark group -/

theorem placeholders_zero : placeholders 0 = [] := rfl

theorem placeholders_one : placeholders 1 = ['?'] := rfl

theorem placeholders_succ_succ (n : Nat) :
    placeholders (n + 2) = '?' :: ',' :: ' ' :: placeholders (n + 1) := by
  simp [placeholders, List.replicate, List.intercalate, List.intersperse]

theorem count_placeholders (n : Nat) : (placeholders n).count '?' = n := by
  induction n with
  | zero => rfl
  | succ n ih =>
    cases n with
    | zero => rfl
    | succ m =>
      rw [placeholders_succ_succ]
      simp only [List.count_cons]
      rw [ih]
      simp

/-! ## Fuel irrelevance and derived one-step equations for the scanner -/

theorem scanF_fuel {α : Type} (p : JsObj α) :
    ∀ n m s, s.length ≤ n → s.length ≤ m → scanF p n s = scanF p m s := by
  intro n
  induction n with
  | zero =>
    intro m s hn _
    cases s with
    | nil => cases m <;> rfl
    | cons c cs => simp at hn
  | succ n ih =>
    intro m s hn hm
    cases s with
    | nil => cases m <;> rfl
    | cons c cs =>
      cases m with
      | zero => simp at hm
      | succ m =>
        have hcs : cs.length ≤ n := by simpa using hn
        have hcs' : cs.length ≤ m := by simpa using hm
        have hrest : (spanWord cs).2.length ≤ cs.length := spanWord_snd_length cs
        rw [scanF, scanF]
        rw [ih m ((spanWord cs).2) (Nat.le_trans hrest hcs) (Nat.le_trans hrest hcs')]
        rw [ih m cs hcs hcs']

theorem scan_nil {α : Type} (p : JsObj α) : scan p [] = ([], []) := rfl

theorem scan_cons_nontoken {α : Type} (p : JsObj α) (c : Char) (cs : List Char)
    (h : ¬(c = ':' ∧ (spanWord cs).1 ≠ [])) :
    scan p (c :: cs) = (c :: (scan p cs).1, (scan p cs).2) := by
  show scanF p (c :: cs).length (c :: cs) = _
  rw [List.length_cons, scanF, if_neg h]
  rfl

theorem scan_token_arr {α : Type} (p : JsObj α) (key rest : List Char) (vs : List α)
    (hk : key ≠ []) (hw : ∀ c ∈ key, isWordChar c = true) (hb : boundaryOk rest = true)
    (hl : p.own.lookup (String.mk key) = some (BVal.arr vs)) :
    scan p (':' :: (key ++ rest)) =
      ('(' :: (placeholders vs.length ++ ')' :: (scan p rest).1), vs ++ (scan p rest).2) := by
  have hsp := spanWord_eq_of_word key rest hw hb
  have hfuel : rest.length ≤ (key ++ rest).length := by simp
  show scanF p (':' :: (key ++ rest)).length (':' :: (key ++ rest)) = _
  rw [List.length_cons, scanF, hsp, if_pos ⟨rfl, hk⟩, hl,
    scanF_fuel p ((key ++ rest).length) rest.length rest hfuel (Nat.le_refl _)]
  rfl

theorem scan_token_scalar {α : Type} (p : JsObj α) (key rest : List Char) (v : α)
    (hk : key ≠ []) (hw : ∀ c ∈ key, isWordChar c = true) (hb : boundaryOk rest = true)
    (hl : p.own.lookup (String.mk key) = some (BVal.scalar v)) :
    scan p (':' :: (key ++ rest)) = ('?' :: (scan p rest).1, v :: (scan p rest).2) := by
  have hsp := spanWord_eq_of_word key rest hw hb
  have hfuel : rest.length ≤ (key ++ rest).length := by simp
  show scanF p (':' :: (key ++ rest)).length (':' :: (key ++ rest)) = _
  rw [List.length_cons, scanF, hsp, if_pos ⟨rfl, hk⟩, hl,
    scanF_fuel p ((key ++ rest).length) rest.length rest hfuel (Nat.le_refl _)]
  rfl

theorem scan_token_none {α : Type} (p : JsObj α) (key rest : List Char)
    (hk : key ≠ []) (hw : ∀ c ∈ key, isWordChar c = true) (hb : boundaryOk rest = true)
    (hl : p.own.lookup (String.mk key) = none) :
    scan p (':' :: (key ++ rest)) =
      (':' :: (key ++ (scan p rest).1), (scan p rest).2) := by
  have hsp := spanWord_eq_of_word key rest hw hb
  have hfuel : rest.length ≤ (key ++ rest).length := by simp
  show scanF p (':' :: (key ++ rest)).length (':' :: (key ++ rest)) = _
  rw [List.length_cons, scanF, hsp, if_pos ⟨rfl, hk⟩, hl,
    scanF_fuel p ((key ++ rest).length) rest.length rest hfuel (Nat.le_refl _)]
  rfl

/-- Text without a colon is copied verbatim and scanning continues behind
it: the compositionality used to place a token inside a larger template. -/
theorem scan_append_no_colon {α : Type} (p : JsObj α) (s t : List Char)
    (h : ':' ∉ s) :
    scan p (s ++ t) = (s ++ (scan p t).1, (scan p t).2) := by
  induction s with
  | nil => simp
  | cons c cs ih =>
    have hc : c ≠ ':' := fun hc => h (by simp [hc])
    have hcs : ':' ∉ cs := fun hm => h (by simp [hm])
    rw [List.cons_append, scan_cons_nontoken p c (cs ++ t) (by simp [hc]), ih hcs]
    simp

/-! ## Scanning with an empty bindings object is the identity -/

theorem scanF_own_nil {α : Type} (p : JsObj α) (hp : p.own = []) :
    ∀ n s, s.length ≤ n → scanF p n s = (s, []) := by
  intro n
  induction n with
  | zero =>
    intro s hs
    cases s with
    | nil => rfl
    | cons c cs => simp at hs
  | succ n ih =>
    intro s hs
    cases s with
    | nil => rfl
    | cons c cs =>
      have hcs : cs.length ≤ n := by simpa using hs
      rw [scanF]
      by_cases h : c = ':' ∧ (spanWord cs).1 ≠ []
      · obtain ⟨hc, _⟩ := h
        rw [if_pos ⟨hc, by assumption⟩, hp]
        have hrest : (spanWord cs).2.length ≤ n :=
          Nat.le_trans (spanWord_snd_length cs) hcs
        rw [show List.lookup (String.mk (spanWord cs).1)
              ([] : List (String × BVal α)) = none from rfl]
        rw [ih _ hrest]
        rw [show ((spanWord cs).2, ([] : List α)).1 = (spanWord cs).2 from rfl]
        rw [spanWord_append_eq, hc]
      · rw [if_neg h, ih cs hcs]

theorem scan_own_nil {α : Type} (p : JsObj α) (hp : p.own = []) (s : List Char) :
    scan p s = (s, []) :=
  scanF_own_nil p hp s.length s (Nat.le_refl _)

/-! ## A template without token-shaped substrings is left unchanged -/

theorem scan_noToken {α : Type} (p : JsObj α) :
    ∀ s, noToken s = true → scan p s = (s, []) := by
  intro s
  induction s with
  | nil => intro _; rfl
  | cons c cs ih =>
    intro h
    rw [noToken, Bool.and_eq_true] at h
    obtain ⟨h1, h2⟩ := h
    have hnt : ¬(c = ':' ∧ (spanWord cs).1 ≠ []) := by
      rintro ⟨hc, hrun⟩
      cases cs with
      | nil => exact hrun rfl
      | cons d ds =>
        have hd : isWordChar d = false := by
          subst hc
          simpa [headNoTok] using h1
        rw [show spanWord (d :: ds) = ([], d :: ds) by simp [spanWord, hd]] at hrun
        exact hrun rfl
    rw [scan_cons_nontoken p c cs hnt, ih h2]

/-! ## Counting question marks -/

theorem count_run_zero (run : List Char) (hw : ∀ c ∈ run, isWordChar c = true) :
    run.count '?' = 0 := by
  rw [List.count_eq_zero]
  intro hm
  exact absurd (hw _ hm) (by decide)

theorem scanF_count {α : Type} (p : JsObj α) :
    ∀ n s, s.length ≤ n →
      ((scanF p n s).1.count '?') = s.count '?' + (scanF p n s).2.length := by
  intro n
  induction n with
  | zero =>
    intro s hs
    cases s with
    | nil => rfl
    | cons c cs => simp at hs
  | succ n ih =>
    intro s hs
    cases s with
    | nil => rfl
    | cons c cs =>
      have hcs : cs.length ≤ n := by simpa using hs
      rw [scanF]
      by_cases h : c = ':' ∧ (spanWord cs).1 ≠ []
      · obtain ⟨hc, hrun⟩ := h
        subst hc
        rw [if_pos ⟨rfl, hrun⟩]
        have hrest : (spanWord cs).2.length ≤ n :=
          Nat.le_trans (spanWord_snd_length cs) hcs
        have hrec := ih ((spanWord cs).2) hrest
        have hsplit : cs.count '?' = ((spanWord cs).2).count '?' := by
          conv_lhs => rw [← spanWord_append_eq cs]
          rw [List.count_append, count_run_zero _ (spanWord_fst_word cs)]
          omega
        rcases hlook : p.own.lookup (String.mk (spanWord cs).1) with _ | b
        · simp only [List.count_cons, List.count_append,
            count_run_zero _ (spanWord_fst_word cs)]
          rw [hrec]
          simp [hsplit]
        · cases b with
          | scalar v =>
            simp only [List.count_cons, List.length_cons]
            rw [hrec]
            simp [hsplit]
            omega
          | arr vs =>
            simp only [List.count_cons, List.count_append, List.length_append,
              count_placeholders]
            rw [hrec]
            simp [hsplit]
            omega
      · rw [if_neg h]
        simp only [List.count_cons]
        rw [ih cs hcs]
        omega

/-! ## The rewritten SQL depends only on the shapes of the bindings -/

theorem scanF_shape {α β : Type} (p : JsObj α) (q : JsObj β)
    (h : ∀ k : String, (p.own.lookup k).map shape = (q.own.lookup k).map shape) :
    ∀ n s, s.length ≤ n → (scanF p n s).1 = (scanF q n s).1 := by
  intro n
  induction n with
  | zero =>
    intro s hs
    cases s with
    | nil => rfl
    | cons c cs => simp at hs
  | succ n ih =>
    intro s hs
    cases s with
    | nil => rfl
    | cons c cs =>
      have hcs : cs.length ≤ n := by simpa using hs
      rw [scanF, scanF]
      by_cases hc : c = ':' ∧ (spanWord cs).1 ≠ []
      · rw [if_pos hc, if_pos hc]
        have hrest : (spanWord cs).2.length ≤ n :=
          Nat.le_trans (spanWord_snd_length cs) hcs
        have hk := h (String.mk (spanWord cs).1)
        rcases hp : p.own.lookup (String.mk (spanWord cs).1) with _ | bp
        · rw [hp] at hk
          rcases hq : q.own.lookup (String.mk (spanWord cs).1) with _ | bq
          · rw [ih _ hrest]
          · rw [hq] at hk
            simp at hk
        · rw [hp] at hk
          rcases hq : q.own.lookup (String.mk (spanWord cs).1) with _ | bq
          · rw [hq] at hk
            simp at hk
          · rw [hq] at hk
            have hk2 : shape bp = shape bq := by simpa using hk
            cases bp with
            | scalar v =>
              cases bq with
              | scalar w =>
                rw [ih _ hrest]
              | arr ws => simp [shape] at hk2
            | arr vs =>
              cases bq with
              | scalar w => simp [shape] at hk2
              | arr ws =>
                have hlen : vs.length = ws.length := by
                  simpa [shape] using hk2
                rw [ih _ hrest]
                simp only [hlen]
      · rw [if_neg hc, if_neg hc]
        rw [ih cs hcs]

/-! ## Relating the two scanners -/

theorem scanE_eq_ok {α : Type} (p : JsObj α) (hp : hopShadowed p = false) :
    ∀ n s, s.length ≤ n → scanE p n s = Except.ok (scanF p n s) := by
  intro n
  induction n with
  | zero =>
    intro s hs
    cases s with
    | nil => rfl
    | cons c cs => simp at hs
  | succ n ih =>
    intro s hs
    cases s with
    | nil => rfl
    | cons c cs =>
      have hcs : cs.length ≤ n := by simpa using hs
      rw [scanE, scanF]
      by_cases h : c = ':' ∧ (spanWord cs).1 ≠ []
      · rw [if_pos h, if_pos h, hp]
        have hrest : (spanWord cs).2.length ≤ n :=
          Nat.le_trans (spanWord_snd_length cs) hcs
        rw [if_neg (by simp)]
        rw [ih _ hrest]
        rcases hlook : p.own.lookup (String.mk (spanWord cs).1) with _ | b
        · rfl
        · cases b <;> rfl
      · rw [if_neg h, if_neg h, ih cs hcs]

/-- When the name `hasOwnProperty` is not shadowed by a binding, the
JavaScript-semantics rewriter returns normally with the pure result. -/
theorem SqlPilotJS_eq_ok {α : Type} (sql : String) (p : JsObj α)
    (hp : hopShadowed p = false) :
    SqlPilotJS sql p = Except.ok (SqlPilot sql p) := by
  rw [SqlPilotJS, scanE_eq_ok p hp sql.data.length sql.data (Nat.le_refl _)]
  rfl

/-! ## Repeated occurrences of one key -/

theorem boundaryOk_append_tokTail (s : List Char) (tok : List Char)
    (ss : List (List Char)) (hs : boundaryOk s = true) (htok : tok ≠ [])
    (hhead : ∀ c cs, tok = c :: cs → isWordChar c = false) :
    boundaryOk (s ++ tokTail tok ss) = true := by
  cases s with
  | cons c cs => simpa [boundaryOk] using hs
  | nil =>
    cases ss with
    | nil => rfl
    | cons s1 rest =>
      cases htok' : tok with
      | nil => exact absurd htok' htok
      | cons c cs =>
        simp [tokTail, boundaryOk, hhead c cs htok']

theorem scan_tokTail_scalar {α : Type} (p : JsObj α) (key : List Char) (v : α)
    (hk : key ≠ []) (hw : ∀ c ∈ key, isWordChar c = true)
    (hl : p.own.lookup (String.mk key) = some (BVal.scalar v)) :
    ∀ ss : List (List Char), (∀ s ∈ ss, ':' ∉ s ∧ boundaryOk s = true) →
      scan p (tokTail (':' :: key) ss) =
        (tokTail ['?'] ss, List.replicate ss.length v) := by
  intro ss
  induction ss with
  | nil => intro _; rfl
  | cons s rest ih =>
    intro hss
    obtain ⟨hs1, hs2⟩ := hss s (by simp)
    have hrest : ∀ t ∈ rest, ':' ∉ t ∧ boundaryOk t = true :=
      fun t ht => hss t (by simp [ht])
    have hb : boundaryOk (s ++ tokTail (':' :: key) rest) = true :=
      boundaryOk_append_tokTail s (':' :: key) rest hs2 (by simp)
        (fun c cs hc => by
          cases hc
          decide)
    have step : tokTail (':' :: key) (s :: rest) =
        ':' :: (key ++ (s ++ tokTail (':' :: key) rest)) := by
      simp [tokTail]
    rw [step, scan_token_scalar p key (s ++ tokTail (':' :: key) rest) v hk hw hb hl,
      scan_append_no_colon p s (tokTail (':' :: key) rest) hs1, ih hrest]
    simp [tokTail, List.replicate_succ]

/-- Pointwise shape-equal association lists give shape-equal lookups. -/
theorem lookup_shape_of_forall₂ {α β : Type}
    (l1 : List (String × BVal α)) (l2 : List (String × BVal β))
    (h : List.Forall₂ (fun a b => a.1 = b.1 ∧ shape a.2 = shape b.2) l1 l2) :
    ∀ k : String, (l1.lookup k).map shape = (l2.lookup k).map shape := by
  induction h with
  | nil => intro k; rfl
  | @cons a b l1' l2' hab htail ih =>
    obtain ⟨ka, va⟩ := a
    obtain ⟨kb, vb⟩ := b
    obtain ⟨h1, h2⟩ := hab
    simp only at h1 h2
    subst h1
    intro k
    by_cases hk : (k == ka) = true
    · simp [List.lookup, hk, h2]
    · have hk' : (k == ka) = false := by simpa using hk
      simp [List.lookup, hk', ih k]

/-! ## The claims -/

/-- Claim C1: a key occurring as a placeholder token that is bound to a
sequence of length n is replaced, in place, by a left parenthesis, n
question marks joined by a comma and a space, and a right parenthesis, and
exactly the n elements of the sequence are appended, in their original
order, to the output parameter sequence. -/
theorem claim_C1 {α : Type} (p : JsObj α) (pre key rest : List Char) (vs : List α)
    (hpre : ':' ∉ pre) (hk : key ≠ []) (hw : ∀ c ∈ key, isWordChar c = true)
    (hb : boundaryOk rest = true)
    (hl : p.own.lookup (String.mk key) = some (BVal.arr vs)) :
    SqlPilot (String.mk (pre ++ ':' :: (key ++ rest))) p =
      (String.mk (pre ++ '(' :: (placeholders vs.length ++ ')' :: (scan p rest).1)),
       vs ++ (scan p rest).2) := by
  show (String.mk (scan p (pre ++ ':' :: (key ++ rest))).1,
        (scan p (pre ++ ':' :: (key ++ rest))).2) = _
  rw [scan_append_no_colon p pre (':' :: (key ++ rest)) hpre,
    scan_token_arr p key rest vs hk hw hb hl]

/-- Claim C1, witness: the spec's scenario `... IN :ids` with
`ids` bound to the three-element sequence 1, 2, 3. -/
theorem claim_C1_witness :
    ((':' ∉ "IN ".data) ∧ "ids".data ≠ [] ∧ (∀ c ∈ "ids".data, isWordChar c = true) ∧
      boundaryOk [] = true ∧
      (JsObj.mk [("ids", BVal.arr [1, 2, 3])] []).own.lookup
        (String.mk "ids".data) = some (BVal.arr [1, 2, 3])) ∧
    SqlPilot "IN :ids" (JsObj.mk [("ids", BVal.arr [1, 2, 3])] []) =
      ("IN (?, ?, ?)", [1, 2, 3]) := by
  constructor
  · decide
  · have h := claim_C1 (JsObj.mk [("ids", BVal.arr [1, 2, 3])] [])
      "IN ".data "ids".data [] [1, 2, 3] (by decide) (by decide) (by decide)
      (by decide) (by decide)
    exact h.trans (by decide)

/-- Claim C2, counterexample: the invariant fails on a template that
already contains a literal question mark: rewriting the one-character
template made of a question mark with empty bindings yields one question
mark in the output SQL but an empty parameter sequence. -/
theorem claim_C2_cex :
    ¬(((SqlPilot "?" (JsObj.mk ([] : List (String × BVal Nat)) [])).1.data.count '?') =
      (SqlPilot "?" (JsObj.mk ([] : List (String × BVal Nat)) [])).2.length) := by
  decide

/-- Claim C2, amended: for every template and bindings, the number of
question marks in the output SQL equals the number of question marks
already present in the input template plus the length of the output
parameter sequence.  (In particular the claim as stated holds whenever the
input template itself contains no question mark.) -/
theorem claim_C2_amended {α : Type} (sql : String) (p : JsObj α) :
    ((SqlPilot sql p).1.data.count '?') =
      sql.data.count '?' + (SqlPilot sql p).2.length :=
  scanF_count p sql.data.length sql.data (Nat.le_refl _)

/-- Claim C3: the source line `if (params.hasOwnProperty(key))` evaluated
at a bindings object that binds the key `hasOwnProperty` to the number 1
calls the number 1 as a function, so the rewrite throws a TypeError
instead of returning a result: the code, run on the template `:a` with
bindings binding `hasOwnProperty` to 1, raises rather than returning. -/
theorem claim_C3 :
    SqlPilotJS ":a" (JsObj.mk [("hasOwnProperty", BVal.scalar (1 : Nat))] []) =
      Except.error JsError.typeError := rfl

/-- Claim C4: a placeholder token whose key is absent from the bindings is
emitted unchanged, character for character, and contributes nothing to the
output parameter sequence. -/
theorem claim_C4 {α : Type} (p : JsObj α) (pre key rest : List Char)
    (hpre : ':' ∉ pre) (hk : key ≠ []) (hw : ∀ c ∈ key, isWordChar c = true)
    (hb : boundaryOk rest = true)
    (hl : p.own.lookup (String.mk key) = none) :
    SqlPilot (String.mk (pre ++ ':' :: (key ++ rest))) p =
      (String.mk (pre ++ ':' :: (key ++ (scan p rest).1)), (scan p rest).2) := by
  show (String.mk (scan p (pre ++ ':' :: (key ++ rest))).1,
        (scan p (pre ++ ':' :: (key ++ rest))).2) = _
  rw [scan_append_no_colon p pre (':' :: (key ++ rest)) hpre,
    scan_token_none p key rest hk hw hb hl]

/-- Claim C4, witness: the spec's scenario `a = :x AND b = :y` with
only `x` bound, at the unresolved token `:y`. -/
theorem claim_C4_witness :
    ((':' ∉ "a = ".data) ∧ "y".data ≠ [] ∧ (∀ c ∈ "y".data, isWordChar c = true) ∧
      boundaryOk [] = true ∧
      (JsObj.mk [("x", BVal.scalar 1)] []).own.lookup (String.mk "y".data) = none) ∧
    SqlPilot "a = :y" (JsObj.mk [("x", BVal.scalar 1)] []) = ("a = :y", []) := by
  constructor
  · decide
  · have h := claim_C4 (JsObj.mk [("x", BVal.scalar 1)] []) "a = ".data "y".data []
      (by decide) (by decide) (by decide) (by decide) (by decide)
    exact h.trans (by decide)

/-- Claim C5: a token whose key is bound to a sequence of length zero is
replaced by the two-character group of an opening and a closing
parenthesis, and nothing is appended to the output parameter sequence. -/
theorem claim_C5 {α : Type} (p : JsObj α) (pre key rest : List Char)
    (hpre : ':' ∉ pre) (hk : key ≠ []) (hw : ∀ c ∈ key, isWordChar c = true)
    (hb : boundaryOk rest = true)
    (hl : p.own.lookup (String.mk key) = some (BVal.arr ([] : List α))) :
    SqlPilot (String.mk (pre ++ ':' :: (key ++ rest))) p =
      (String.mk (pre ++ '(' :: ')' :: (scan p rest).1), (scan p rest).2) := by
  show (String.mk (scan p (pre ++ ':' :: (key ++ rest))).1,
        (scan p (pre ++ ':' :: (key ++ rest))).2) = _
  rw [scan_append_no_colon p pre (':' :: (key ++ rest)) hpre,
    scan_token_arr p key rest ([] : List α) hk hw hb hl]
  rfl

/-- Claim C5, witness: `IN :ids` with `ids` bound to the empty sequence
yields `IN ()` and no parameters. -/
theorem claim_C5_witness :
    ((':' ∉ "IN ".data) ∧ "ids".data ≠ [] ∧ (∀ c ∈ "ids".data, isWordChar c = true) ∧
      boundaryOk [] = true ∧
      (JsObj.mk [("ids", BVal.arr ([] : List Nat))] []).own.lookup
        (String.mk "ids".data) = some (BVal.arr ([] : List Nat))) ∧
    SqlPilot "IN :ids" (JsObj.mk [("ids", BVal.arr ([] : List Nat))] []) =
      ("IN ()", []) := by
  constructor
  · decide
  · have h := claim_C5 (JsObj.mk [("ids", BVal.arr ([] : List Nat))] [])
      "IN ".data "ids".data [] (by decide) (by decide) (by decide) (by decide)
      (by decide)
    exact h.trans (by decide)

/-- Claim C6: a template containing no substring matching the placeholder
pattern (no colon immediately followed by a word character) is returned
unchanged, with an empty output parameter sequence, for every bindings
mapping. -/
theorem claim_C6 {α : Type} (p : JsObj α) (sql : String)
    (h : noToken sql.data = true) :
    SqlPilot sql p = (sql, []) := by
  show (String.mk (scan p sql.data).1, (scan p sql.data).2) = _
  rw [scan_noToken p sql.data h]

/-- Claim C6, witness: a token-free template passes through unchanged even
with non-empty bindings. -/
theorem claim_C6_witness :
    noToken "SELECT 1 ? ::".data = true ∧
    SqlPilot "SELECT 1 ? ::" (JsObj.mk [("a", BVal.scalar 5)] []) =
      ("SELECT 1 ? ::", []) :=
  ⟨by decide, claim_C6 (JsObj.mk [("a", BVal.scalar 5)] []) "SELECT 1 ? ::" (by decide)⟩

/-- Claim C7: rewriting the output SQL a second time with an empty
bindings map returns that string unchanged together with an empty
parameter sequence, for every original template and bindings. -/
theorem claim_C7 {α β : Type} (sql : String) (p : JsObj α) :
    SqlPilot (SqlPilot sql p).1 (JsObj.mk ([] : List (String × BVal β)) []) =
      ((SqlPilot sql p).1, ([] : List β)) := by
  show (String.mk (scan (JsObj.mk ([] : List (String × BVal β)) [])
          (SqlPilot sql p).1.data).1,
        (scan (JsObj.mk ([] : List (String × BVal β)) [])
          (SqlPilot sql p).1.data).2) = _
  rw [scan_own_nil (JsObj.mk ([] : List (String × BVal β)) []) rfl
    (SqlPilot sql p).1.data]

/-- Claim C8: a scalar-bound key occurring once per tail segment of the
template is independently resolved at each of its k occurrences: one
question mark is emitted per occurrence and the bound value is appended
once per occurrence, so the parameter sequence is the value repeated k
times. -/
theorem claim_C8 {α : Type} (p : JsObj α) (v : α) (key s0 : List Char)
    (ss : List (List Char))
    (hk : key ≠ []) (hw : ∀ c ∈ key, isWordChar c = true)
    (hl : p.own.lookup (String.mk key) = some (BVal.scalar v))
    (hs0 : ':' ∉ s0) (hss : ∀ s ∈ ss, ':' ∉ s ∧ boundaryOk s = true) :
    SqlPilot (String.mk (s0 ++ tokTail (':' :: key) ss)) p =
      (String.mk (s0 ++ tokTail ['?'] ss), List.replicate ss.length v) := by
  show (String.mk (scan p (s0 ++ tokTail (':' :: key) ss)).1,
        (scan p (s0 ++ tokTail (':' :: key) ss)).2) = _
  rw [scan_append_no_colon p s0 _ hs0, scan_tokTail_scalar p key v hk hw hl ss hss]

/-- Claim C8, witness: the spec's scenario of `:userId` bound to 1 and
used three times: three question marks are emitted and the parameter
sequence is 1, 1, 1. -/
theorem claim_C8_witness :
    ("userId".data ≠ [] ∧ (∀ c ∈ "userId".data, isWordChar c = true) ∧
      (JsObj.mk [("userId", BVal.scalar 1)] []).own.lookup
        (String.mk "userId".data) = some (BVal.scalar 1) ∧
      (':' ∉ "a=".data) ∧
      (∀ s ∈ [",b=".data, ",c=".data, ([] : List Char)],
        ':' ∉ s ∧ boundaryOk s = true)) ∧
    SqlPilot "a=:userId,b=:userId,c=:userId"
        (JsObj.mk [("userId", BVal.scalar 1)] []) =
      ("a=?,b=?,c=?", [1, 1, 1]) := by
  constructor
  · decide
  · have h := claim_C8 (JsObj.mk [("userId", BVal.scalar (1 : Nat))] []) (1 : Nat)
      "userId".data "a=".data [",b=".data, ",c=".data, ([] : List Char)]
      (by decide) (by decide) (by decide) (by decide) (by decide)
    have h2 : (String.mk ("a=".data ++ tokTail ['?'] [",b=".data, ",c=".data, ([] : List Char)]),
        List.replicate ([",b=".data, ",c=".data, ([] : List Char)]).length (1 : Nat)) =
        (("a=?,b=?,c=?" : String), [1, 1, 1]) := by decide
    exact h.trans h2

/-- Claim C9: the rewritten SQL text depends only on the template, on
which keys are bound, and on the shapes of the bound values (sequence of
which length versus scalar), never on the bound values themselves: two
bindings objects whose own properties have shape-equal lookups at every
key produce identical output SQL on every template. -/
theorem claim_C9 {α β : Type} (sql : String) (p : JsObj α) (q : JsObj β)
    (h : ∀ k : String, (p.own.lookup k).map shape = (q.own.lookup k).map shape) :
    (SqlPilot sql p).1 = (SqlPilot sql q).1 := by
  show String.mk (scan p sql.data).1 = String.mk (scan q sql.data).1
  rw [show (scan p sql.data).1 = (scan q sql.data).1 from
    scanF_shape p q h sql.data.length sql.data (Nat.le_refl _)]

/-- Claim C9, witness: two bindings maps with the same keys, the same
scalar-versus-sequence split and the same sequence length but different
values produce the same output SQL. -/
theorem claim_C9_witness :
    (SqlPilot "x = :a AND y IN :b" (JsObj.mk [("a", BVal.scalar 1), ("b", BVal.arr [2, 3])] [])).1 =
    (SqlPilot "x = :a AND y IN :b" (JsObj.mk [("a", BVal.scalar 9), ("b", BVal.arr [7, 8])] [])).1 :=
  claim_C9 "x = :a AND y IN :b"
    (JsObj.mk [("a", BVal.scalar 1), ("b", BVal.arr [2, 3])] [])
    (JsObj.mk [("a", BVal.scalar 9), ("b", BVal.arr [7, 8])] [])
    (lookup_shape_of_forall₂ _ _
      (List.Forall₂.cons (by decide)
        (List.Forall₂.cons (by decide) List.Forall₂.nil)))

/-- Claim C10: key presence is an own-property check: a token whose key is
bound only as an inherited (prototype) property of the bindings object is
treated as absent, so it passes through unchanged and appends nothing to
the parameter sequence. -/
theorem claim_C10 {α : Type} (p : JsObj α) (pre key rest : List Char) (b : BVal α)
    (hpre : ':' ∉ pre) (hk : key ≠ []) (hw : ∀ c ∈ key, isWordChar c = true)
    (hb : boundaryOk rest = true)
    (hown : p.own.lookup (String.mk key) = none)
    (_hproto : p.proto.lookup (String.mk key) = some b) :
    SqlPilot (String.mk (pre ++ ':' :: (key ++ rest))) p =
      (String.mk (pre ++ ':' :: (key ++ (scan p rest).1)), (scan p rest).2) := by
  show (String.mk (scan p (pre ++ ':' :: (key ++ rest))).1,
        (scan p (pre ++ ':' :: (key ++ rest))).2) = _
  rw [scan_append_no_colon p pre (':' :: (key ++ rest)) hpre,
    scan_token_none p key rest hk hw hb hown]

/-- Claim C10, witness: a bindings object whose prototype carries
`toString` as a data property: the token `:toString` passes through
unchanged and no parameter is appended. -/
theorem claim_C10_witness :
    ((':' ∉ "x".data) ∧ "toString".data ≠ [] ∧
      (∀ c ∈ "toString".data, isWordChar c = true) ∧ boundaryOk [] = true ∧
      (JsObj.mk ([] : List (String × BVal Nat))
        [("toString", BVal.scalar 0)]).own.lookup (String.mk "toString".data) = none ∧
      (JsObj.mk ([] : List (String × BVal Nat))
        [("toString", BVal.scalar 0)]).proto.lookup (String.mk "toString".data) =
        some (BVal.scalar 0)) ∧
    SqlPilot "x:toString" (JsObj.mk ([] : List (String × BVal Nat))
        [("toString", BVal.scalar 0)]) = ("x:toString", []) := by
  constructor
  · decide
  · have h := claim_C10 (JsObj.mk ([] : List (String × BVal Nat))
      [("toString", BVal.scalar 0)]) "x".data "toString".data [] (BVal.scalar 0)
      (by decide) (by decide) (by decide) (by decide) (by decide) (by decide)
    exact h.trans (by decide)
